import Mathlib

/-!
# Verification of the dev-journal CLI against its specification

Shallow embedding of the `dev-journal-2026` repository: the journal entry
model (`src/journal/models.py`, `src/main.py`), the JSON store
(`src/journal/db.py`) and the CLI operations (`src/journal/cli.py`,
`src/main.py`).  The repository contains two variants of the program: the
legacy monolith `src/main.py` and the refactored `src/journal/` package;
where a claim cites both, both are embedded.

Python strings are modelled as Lean `String`s viewed as their lists of
code points (`String.data`), which matches Python's per-code-point
indexing, slicing and `in` operator.  Python string helpers used by the
code (`str.lower`, `str.strip`, `str.split`, slicing, substring `in`,
`int()` on decimal numerals, f-string decimal rendering) are defined below
over `List Char` so that every definition is executable by `decide`.
-/

/-! ## Python string primitives -/

/-- Python `str.lower()` restricted to the ASCII range, which is all the
code under verification relies on (`Char.toLower` lowers `A`–`Z`). -/
def pyLower (s : String) : String := ⟨s.data.map Char.toLower⟩

/-- Python slicing `s[:k]`: the first `k` code points. -/
def pyTake (k : Nat) (s : String) : String := ⟨s.data.take k⟩

/-- Python `len(s)`: number of code points. -/
def pyLen (s : String) : Nat := s.data.length

/-- `listPrefixB n h` decides whether `n` is a prefix of `h`. -/
def listPrefixB : List Char → List Char → Bool
  | [], _ => true
  | _ :: _, [] => false
  | a :: as, b :: bs => (a = b) && listPrefixB as bs

/-- `listSubB n h` decides whether `n` occurs contiguously inside `h`. -/
def listSubB (needle : List Char) : List Char → Bool
  | [] => listPrefixB needle []
  | c :: cs => listPrefixB needle (c :: cs) || listSubB needle cs

/-- Python's substring test `needle in hay` on strings. -/
def pyInStr (needle hay : String) : Bool := listSubB needle.data hay.data

/-- Python `str.strip()`: drop leading and trailing whitespace. -/
def pyStrip (s : String) : String :=
  ⟨((s.data.dropWhile Char.isWhitespace).reverse.dropWhile Char.isWhitespace).reverse⟩

/-- `splitOnChar sep cs` splits `cs` at every occurrence of `sep`,
keeping empty pieces, as Python `str.split(sep)` does. -/
def splitOnChar (sep : Char) : List Char → List (List Char)
  | [] => [[]]
  | c :: cs =>
    if c = sep then [] :: splitOnChar sep cs
    else
      match splitOnChar sep cs with
      | [] => [[c]]
      | r :: rs => (c :: r) :: rs

/-- Python `s.split(",")`. -/
def pySplitComma (s : String) : List String :=
  (splitOnChar ',' s.data).map (fun l => ⟨l⟩)

/-- Numeric value of a digit list, most significant first
(the accumulator loop underlying decimal parsing). -/
def digitsVal (ds : List Char) : Nat :=
  ds.foldl (fun a c => a * 10 + (c.toNat - 48)) 0

/-- Python `int(s)` restricted to plain decimal numerals (the only shape
the program ever feeds it): `some` of the value on a nonempty all-digit
string, `none` (Python: `ValueError`) otherwise. -/
def pyInt (s : String) : Option Nat :=
  if s.data ≠ [] ∧ s.data.all Char.isDigit
  then some (digitsVal s.data) else none

/-- Digit-emission loop for decimal rendering, structurally recursive on a
fuel argument so that it evaluates in the kernel. -/
def renderAux : Nat → Nat → List Char → List Char
  | 0, n, acc => Nat.digitChar (n % 10) :: acc
  | fuel + 1, n, acc =>
    if n < 10 then Nat.digitChar n :: acc
    else renderAux fuel (n / 10) (Nat.digitChar (n % 10) :: acc)

/-- Python f-string decimal rendering `f"{n}"` of a natural number. -/
def natToDecimal (n : Nat) : String := ⟨renderAux n n []⟩

/-- Python `f"{n:05d}"`: decimal rendering left-padded with zeros to
width 5 (numbers already wider than 5 digits are left unpadded). -/
def pad5 (n : Nat) : String :=
  ⟨List.replicate (5 - (natToDecimal n).data.length) '0' ++ (natToDecimal n).data⟩

/-! ## The entry model (`JournalEntry`) -/

/-- `TITLE_LENGTH` from `src/journal/models.py` and `src/main.py`. -/
def TITLE_LENGTH : Nat := 30

/-- `CONTENT_LENGTH` from `src/journal/models.py` and `src/main.py`. -/
def CONTENT_LENGTH : Nat := 70

/-- `MAX_ID` from `src/journal/models.py` and `src/main.py`. -/
def MAX_ID : Nat := 99999

/-- `FIRST_ID` from `src/journal/models.py`. -/
def FIRST_ID : String := "1"

/-- `FIRST_ID` from `src/main.py` (zero-padded variant). -/
def MAIN_FIRST_ID : String := "00001"

/-- The `JournalEntry` dataclass: `id`, `title`, `content`, `timestamp`,
`tags`.  Timestamps are carried as their ISO-8601 string form, which is
what the program itself stores and persists. -/
structure Entry where
  id : String
  title : String
  content : String
  timestamp : String
  tags : List String
deriving DecidableEq, Repr

/-- The `__post_init__` truncation step shared by both variants:
`if len(s) > lim: s = s[:lim]`. -/
def truncateTo (lim : Nat) (s : String) : String :=
  if lim < pyLen s then pyTake lim s else s

/-- Constructing a `JournalEntry(id=…, title=…, content=…, timestamp=…,
tags=…)`: the dataclass constructor followed by `__post_init__`, which
truncates over-long titles and contents and never fails. -/
def mkEntry (id title content timestamp : String) (tags : List String) : Entry :=
  { id := id
    title := truncateTo TITLE_LENGTH title
    content := truncateTo CONTENT_LENGTH content
    timestamp := timestamp
    tags := tags }

/-- `int(entry.id)`.  The program only ever stores decimal numerals in
`id`; on a non-numeral Python would raise `ValueError`, and the default
`0` here is never reached for program-generated ids. -/
def idNum (e : Entry) : Nat := (pyInt e.id).getD 0

/-- `max(int(entry.id) for entry in existing_entries)` over a nonempty
collection (the `0` seed is absorbed because all values are naturals). -/
def maxEntryId (entries : List Entry) : Nat :=
  (entries.map idNum).foldl max 0

/-- The error taxonomy raised by the entry model. -/
inductive JournalError where
  | entryAlreadyExists
  | maximumNumberOfEntries
deriving DecidableEq, Repr

namespace models

/-- `next_entry_id` from `src/journal/models.py`: `FIRST_ID` on an empty
collection, `MaximumNumberOfEntries` when the maximum id has reached
`MAX_ID`, else the unpadded decimal rendering of `max + 1`. -/
def next_entry_id (existing_entries : List Entry) : Except JournalError String :=
  if existing_entries.isEmpty then .ok FIRST_ID
  else if MAX_ID ≤ maxEntryId existing_entries then .error .maximumNumberOfEntries
  else .ok (natToDecimal (maxEntryId existing_entries + 1))

/-- `JournalEntry.create` from `src/journal/models.py`: rejects a title
equal case-insensitively to an existing title (the cli variant prints the
message and raises `typer.Exit`; modelled as the `entryAlreadyExists`
error), otherwise builds the entry with the next id, the current
timestamp `now` and no tags. -/
def create (title content : String) (existing_entries : List Entry) (now : String) :
    Except JournalError Entry :=
  if existing_entries.any (fun e => pyLower e.title = pyLower title) then
    .error .entryAlreadyExists
  else
    match next_entry_id existing_entries with
    | .error err => .error err
    | .ok entry_id => .ok (mkEntry entry_id title content now [])

end models

namespace mainpy

/-- `next_entry_id` from `src/main.py`: same logic as the package
variant but with the zero-padded first id `"00001"` and the rendering
`f"{max_id + 1:05d}"`. -/
def next_entry_id (existing_entries : List Entry) : Except JournalError String :=
  if existing_entries.isEmpty then .ok MAIN_FIRST_ID
  else if MAX_ID ≤ maxEntryId existing_entries then .error .maximumNumberOfEntries
  else .ok (pad5 (maxEntryId existing_entries + 1))

end mainpy

/-! ## Correctness of the decimal rendering helpers -/

theorem digitChar_isDigit_and_val {n : Nat} (h : n < 10) :
    (Nat.digitChar n).isDigit = true ∧ (Nat.digitChar n).toNat - 48 = n := by
  interval_cases n <;> exact ⟨by decide, by decide⟩

theorem digitsVal_append_singleton (ds : List Char) (c : Char) :
    digitsVal (ds ++ [c]) = digitsVal ds * 10 + (c.toNat - 48) := by
  simp [digitsVal, List.foldl_append]

theorem renderAux_spec :
    ∀ (fuel n : Nat) (acc : List Char), n < 10 ^ (fuel + 1) →
      ∃ ds, renderAux fuel n acc = ds ++ acc ∧ ds ≠ [] ∧
        ds.all Char.isDigit = true ∧ digitsVal ds = n := by
  intro fuel
  induction fuel with
  | zero =>
    intro n acc h
    have hn : n < 10 := by simpa using h
    have hmod : n % 10 = n := Nat.mod_eq_of_lt hn
    refine ⟨[Nat.digitChar (n % 10)], rfl, by simp, ?_, ?_⟩
    · rw [hmod]; simpa using (digitChar_isDigit_and_val hn).1
    · rw [hmod]; simp [digitsVal, (digitChar_isDigit_and_val hn).2]
  | succ fuel ih =>
    intro n acc h
    by_cases hn : n < 10
    · refine ⟨[Nat.digitChar n], by simp [renderAux, hn], by simp, ?_, ?_⟩
      · simpa using (digitChar_isDigit_and_val hn).1
      · simp [digitsVal, (digitChar_isDigit_and_val hn).2]
    · have hdiv : n / 10 < 10 ^ (fuel + 1) := by
        have h10 : (0:Nat) < 10 := by norm_num
        rw [Nat.div_lt_iff_lt_mul h10]
        calc n < 10 ^ (fuel + 1 + 1) := h
          _ = 10 ^ (fuel + 1) * 10 := by ring
      obtain ⟨ds, hds, hne, hdig, hval⟩ :=
        ih (n / 10) (Nat.digitChar (n % 10) :: acc) hdiv
      refine ⟨ds ++ [Nat.digitChar (n % 10)], ?_, by simp, ?_, ?_⟩
      · simp [renderAux, hn, hds]
      · have hd := (digitChar_isDigit_and_val (Nat.mod_lt n (by norm_num) (y := 10))).1
        simp [List.all_append, hdig, hd]
      · rw [digitsVal_append_singleton, hval,
          (digitChar_isDigit_and_val (Nat.mod_lt n (by norm_num) (y := 10))).2]
        omega

theorem natToDecimal_data (n : Nat) :
    (natToDecimal n).data ≠ [] ∧ (natToDecimal n).data.all Char.isDigit = true ∧
      digitsVal (natToDecimal n).data = n := by
  have hlt : n < 10 ^ (n + 1) := by
    calc n < 10 ^ n := Nat.lt_pow_self (by norm_num) n
      _ ≤ 10 ^ (n + 1) := Nat.pow_le_pow_right (by norm_num) (Nat.le_succ n)
  obtain ⟨ds, hds, hne, hdig, hval⟩ := renderAux_spec n n [] hlt
  have : (natToDecimal n).data = ds := by simp [natToDecimal, hds]
  rw [this]
  exact ⟨hne, hdig, hval⟩

/-- The decimal rendering round-trips through Python `int`. -/
theorem pyInt_natToDecimal (n : Nat) : pyInt (natToDecimal n) = some n := by
  obtain ⟨hne, hdig, hval⟩ := natToDecimal_data n
  simp [pyInt, hne, hdig, hval]

theorem digitsVal_replicate_zero_append (k : Nat) (ds : List Char) :
    digitsVal (List.replicate k '0' ++ ds) = digitsVal ds := by
  induction k with
  | zero => simp
  | succ k ih =>
    simpa [digitsVal, List.replicate_succ] using ih

/-- The zero-padded rendering also round-trips through Python `int`. -/
theorem pyInt_pad5 (n : Nat) : pyInt (pad5 n) = some n := by
  obtain ⟨hne, hdig, hval⟩ := natToDecimal_data n
  have hdata : (pad5 n).data =
      List.replicate (5 - (natToDecimal n).data.length) '0' ++ (natToDecimal n).data := rfl
  have hne' : (pad5 n).data ≠ [] := by
    rw [hdata]; simp [hne]
  have hdig' : (pad5 n).data.all Char.isDigit = true := by
    rw [hdata]
    simp only [List.all_append, Bool.and_eq_true]
    refine ⟨?_, hdig⟩
    rw [List.all_eq_true]
    intro c hc
    rw [List.eq_of_mem_replicate hc]
    decide
  have hval' : digitsVal (pad5 n).data = n := by
    rw [hdata, digitsVal_replicate_zero_append, hval]
  simp [pyInt, hne', hdig', hval']

/-! ## Shared operation helpers -/

/-- Outcome reported by `edit`/`delete`: a success message, the
"No entry was found with this ID" message, or no message at all
(the loop fell through silently; only reachable in `src/main.py`). -/
inductive OpMsg where
  | done
  | notFound
  | silent
deriving DecidableEq, Repr

/-- Outcome of the `add` command. -/
inductive AddMsg where
  | saved
  | duplicateTitle
  | maxEntries
deriving DecidableEq, Repr

/-- Tag parsing in `add`:
`[tag.strip() for tag in tags.split(",") if tag.strip()]`. -/
def splitTags (s : String) : List String :=
  ((pySplitComma s).map pyStrip).filter (fun t => t ≠ "")

/-- The edit loop: overwrite `content` of the first entry whose id equals
`entry_id`, then `break`; all other fields and entries untouched. -/
def editFirst (entry_id new_content : String) : List Entry → List Entry
  | [] => []
  | e :: es =>
    if e.id = entry_id then { e with content := new_content } :: es
    else e :: editFirst entry_id new_content es

/-- The delete loop: `journal_entries.remove(entry)` on the first entry
whose id equals `entry_id`, then `break`.  (`list.remove` drops the first
element equal to that entry; an earlier equal element would itself have
matched the id first, so this is exactly the first id match.) -/
def removeFirst (entry_id : String) : List Entry → List Entry
  | [] => []
  | e :: es => if e.id = entry_id then es else e :: removeFirst entry_id es

/-- Tag filtering in `display`: keep an entry iff any filter tag equals
(case-insensitively) one of the entry's tags —
`any(query_tag.lower() in map(str.lower, entry.tags) for query_tag in tags)`
(`in` over the `map` iterator is an equality membership test). -/
def tagMatch (tags : List String) (e : Entry) : Bool :=
  tags.any (fun q => (e.tags.map pyLower).contains (pyLower q))

/-- The descending-by-numeric-id order used by the cli `display`:
`sorted(entries, key=lambda e: int(e.id), reverse=True)`. -/
def entryGE (a b : Entry) : Prop := idNum b ≤ idNum a

instance : DecidableRel entryGE := fun a b =>
  inferInstanceAs (Decidable (idNum b ≤ idNum a))

instance : IsTotal Entry entryGE := ⟨fun a b => Nat.le_total (idNum b) (idNum a)⟩

instance : IsTrans Entry entryGE := ⟨fun _ _ _ h1 h2 => le_trans h2 h1⟩

namespace cli

/-- The cli `add` command body inside one store session.  Duplicate titles
(`typer.Exit` raised inside `create`) and `MaximumNumberOfEntries` both
abort the session before its closing `save`, so the persisted collection
is the unchanged input; on success the new entry (tags set, ISO timestamp)
is appended at the end. -/
def add (title content tagsStr now : String) (journal_entries : List Entry) :
    List Entry × AddMsg :=
  match models.create title content journal_entries now with
  | .error .entryAlreadyExists => (journal_entries, .duplicateTitle)
  | .error .maximumNumberOfEntries => (journal_entries, .maxEntries)
  | .ok e =>
    (journal_entries ++ [{ e with timestamp := now, tags := splitTags tagsStr }], .saved)

/-- The cli `edit` command: exact-id presence check
(`any(entry_id == entry.id ...)`), "No entry was found with this ID" +
`typer.Exit` when absent, else overwrite the first match's content. -/
def edit (entry_id new_content : String) (journal_entries : List Entry) :
    List Entry × OpMsg :=
  if journal_entries.any (fun e => e.id = entry_id) then
    (editFirst entry_id new_content journal_entries, .done)
  else (journal_entries, .notFound)

/-- The cli `delete` command: exact-id presence check, "No entry was found
with this ID" + `typer.Exit` when absent, else remove the first match. -/
def delete (entry_id : String) (journal_entries : List Entry) :
    List Entry × OpMsg :=
  if journal_entries.any (fun e => e.id = entry_id) then
    (removeFirst entry_id journal_entries, .done)
  else (journal_entries, .notFound)

/-- The cli `display` command: report "No entries yet in Dev Journal."
(first component) on an empty collection; otherwise sort by numeric id
descending (Python's stable `sorted` with `reverse=True` keeps the
original order of equal keys, as `insertionSort entryGE` does) and, when
the tag filter is non-empty, keep only tag-matching entries. -/
def display (tags : List String) (journal_entries : List Entry) :
    Bool × List Entry :=
  if journal_entries.isEmpty then (true, [])
  else
    let sortedEntries := journal_entries.insertionSort entryGE
    (false, if tags.isEmpty then sortedEntries else sortedEntries.filter (tagMatch tags))

end cli

namespace mainpy

/-- The `main.py` `edit` command.  The presence check is
`any(entry_id in entry.id ...)` — a substring test — while the update
loop compares with `==`; when the id is a substring of some id but equal
to none, the loop falls through with no message (`OpMsg.silent`). -/
def edit (entry_id new_content : String) (journal_entries : List Entry) :
    List Entry × OpMsg :=
  if journal_entries.any (fun e => pyInStr entry_id e.id) then
    if journal_entries.any (fun e => e.id = entry_id) then
      (editFirst entry_id new_content journal_entries, .done)
    else (journal_entries, .silent)
  else (journal_entries, .notFound)

/-- The `main.py` `delete` command, with the same substring presence
check as `mainpy.edit`. -/
def delete (entry_id : String) (journal_entries : List Entry) :
    List Entry × OpMsg :=
  if journal_entries.any (fun e => pyInStr entry_id e.id) then
    if journal_entries.any (fun e => e.id = entry_id) then
      (removeFirst entry_id journal_entries, .done)
    else (journal_entries, .silent)
  else (journal_entries, .notFound)

/-- The `main.py` `display` command: prints the no-entries message on an
empty collection (first component) and shows the (optionally
tag-filtered) entries in stored order — it never sorts. -/
def display (tags : List String) (entries : List Entry) : Bool × List Entry :=
  (entries.isEmpty, if tags.isEmpty then entries else entries.filter (tagMatch tags))

/-- `query.lower() in entry.title.lower()`. -/
def matchesTitle (query : String) (e : Entry) : Bool :=
  pyInStr (pyLower query) (pyLower e.title)

/-- `query.lower() in entry.content.lower()`. -/
def matchesContent (query : String) (e : Entry) : Bool :=
  pyInStr (pyLower query) (pyLower e.content)

/-- `any(query.lower() in tag.lower() for tag in entry.tags)`. -/
def matchesTags (query : String) (e : Entry) : Bool :=
  e.tags.any (fun t => pyInStr (pyLower query) (pyLower t))

/-- Title tier of the `main.py` `search` (non-titles-only path). -/
def title_results (query : String) (journal_entries : List Entry) : List Entry :=
  journal_entries.filter (matchesTitle query)

/-- Content tier: content matches, excluding entries already in the title
tier (`entry not in title_results`, structural equality as in Python). -/
def content_results (query : String) (journal_entries : List Entry) : List Entry :=
  journal_entries.filter
    (fun e => matchesContent query e && !(title_results query journal_entries).contains e)

/-- Tag tier: tag matches, excluding entries already in the content tier
(`entry not in content_results`) — note: not excluding the title tier. -/
def tags_results (query : String) (journal_entries : List Entry) : List Entry :=
  journal_entries.filter
    (fun e => matchesTags query e && !(content_results query journal_entries).contains e)

/-- The `main.py` `search` result list for `titles_only=False`:
`title_results + content_results + tags_results`. -/
def search (query : String) (journal_entries : List Entry) : List Entry :=
  title_results query journal_entries ++ content_results query journal_entries ++
    tags_results query journal_entries

end mainpy

/-! ## The store (`src/journal/db.py`) -/

namespace db

/-- JSON values, the abstraction boundary of `json.dump`/`json.load`. -/
inductive JsonVal where
  | str (s : String)
  | num (n : Int)
  | boolean (b : Bool)
  | null
  | arr (xs : List JsonVal)
  | obj (kvs : List (String × JsonVal))

/-- Python exceptions that `load_entries` can let escape. -/
inductive PyExc where
  | fileNotFoundError
  | typeError
deriving DecidableEq, Repr

/-- State of the backing file as seen by `load_entries`: absent
(`open` raises `FileNotFoundError`), present but empty or not
syntactically valid JSON (`json.load` raises `JSONDecodeError`), or
present with a parsed JSON value. -/
inductive FileState where
  | absent
  | unparsable
  | parsed (v : JsonVal)

/-- Result of a call to `load_entries`: a normal return, or an uncaught
exception propagating to the caller. -/
inductive LoadResult where
  | ok (entries : List Entry)
  | raised (exc : PyExc)
deriving DecidableEq, Repr

/-- `dataclasses.asdict(entry)`: the record written by `save`, with the
dataclass's five fields in declaration order. -/
def entryToDict (e : Entry) : JsonVal :=
  .obj [("id", .str e.id), ("title", .str e.title), ("content", .str e.content),
        ("timestamp", .str e.timestamp), ("tags", .arr (e.tags.map .str))]

/-- `JournalDatabase.save`: serialize every entry and overwrite the file
with the resulting JSON array. -/
def save (entries : List Entry) : FileState :=
  .parsed (.arr (entries.map entryToDict))

/-- First value bound to `key`, as a Python dict lookup. -/
def getVal : List (String × JsonVal) → String → Option JsonVal
  | [], _ => none
  | (k, v) :: kvs, key => if k = key then some v else getVal kvs key

/-- Reconstruct a string list from a JSON array of strings. -/
def strList : List JsonVal → Option (List String)
  | [] => some []
  | .str s :: xs => (strList xs).map (fun l => s :: l)
  | _ => none

/-- `JournalEntry(**entry)` on a loaded record: requires exactly the
dataclass's keyword names (an unknown key raises `TypeError`) with
string-typed fields and a string-array `tags` — the only shapes `save`
ever writes — and re-runs `__post_init__` (`mkEntry`).  A record missing
`timestamp`/`tags` would be defaulted by the dataclass, but `save` always
writes all five keys, so that path is not modelled. -/
def decodeRecord (v : JsonVal) : Option Entry :=
  match v with
  | .obj kvs =>
    if kvs.all (fun kv =>
        kv.1 == "id" || kv.1 == "title" || kv.1 == "content" ||
        kv.1 == "timestamp" || kv.1 == "tags") then
      match getVal kvs "id", getVal kvs "title", getVal kvs "content",
          getVal kvs "timestamp", getVal kvs "tags" with
      | some (.str i), some (.str t), some (.str c), some (.str ts), some (.arr tg) =>
        (strList tg).map (fun tgs => mkEntry i t c ts tgs)
      | _, _, _, _, _ => none
    else none
  | _ => none

/-- The list comprehension `[JournalEntry(**entry) for entry in …]`:
reconstruct every record, failing (`TypeError`) at the first bad one. -/
def decodeAll : List JsonVal → Option (List Entry)
  | [] => some []
  | v :: vs =>
    match decodeRecord v, decodeAll vs with
    | some e, some es => some (e :: es)
    | _, _ => none

/-- `JournalDatabase.load_entries`.  The `open` call sits outside the
`try`, so an absent file raises `FileNotFoundError` uncaught (the
`except` clause naming it is unreachable); an empty or syntactically
malformed file is caught as `JSONDecodeError` and yields `[]`; a parsed
value that is not an array of well-formed records raises `TypeError`
from the list comprehension, also uncaught. -/
def load_entries (file : FileState) : LoadResult :=
  match file with
  | .absent => .raised .fileNotFoundError
  | .unparsable => .ok []
  | .parsed v =>
    match v with
    | .arr xs =>
      match decodeAll xs with
      | some entries => .ok entries
      | none => .raised .typeError
    | _ => .raised .typeError

end db

/-! ## Helper lemmas -/

theorem init_le_foldl_max (l : List Nat) (a : Nat) : a ≤ l.foldl max a := by
  induction l generalizing a with
  | nil => exact le_refl a
  | cons b l ih => exact le_trans (Nat.le_max_left a b) (ih (max a b))

theorem mem_le_foldl_max {x : Nat} (l : List Nat) (a : Nat) (h : x ∈ l) :
    x ≤ l.foldl max a := by
  induction l generalizing a with
  | nil => cases h
  | cons b l ih =>
    rcases List.mem_cons.mp h with rfl | h'
    · exact le_trans (Nat.le_max_right a x) (init_le_foldl_max l (max a x))
    · exact ih (max a b) h'

theorem foldl_max_le {l : List Nat} {a b : Nat} (ha : a ≤ b) (h : ∀ x ∈ l, x ≤ b) :
    l.foldl max a ≤ b := by
  induction l generalizing a with
  | nil => exact ha
  | cons c l ih =>
    exact ih (max_le ha (h c (List.mem_cons_self c l))) fun x hx => h x (List.mem_cons_of_mem c hx)

theorem pyLen_truncateTo (lim : Nat) (s : String) : pyLen (truncateTo lim s) ≤ lim := by
  unfold truncateTo
  by_cases h : lim < pyLen s
  · rw [if_pos h]
    simp [pyLen, pyTake, List.length_take]
  · rw [if_neg h]
    exact Nat.not_lt.mp h

theorem idNum_le_maxEntryId {e : Entry} {entries : List Entry} (h : e ∈ entries) :
    idNum e ≤ maxEntryId entries :=
  mem_le_foldl_max _ 0 (List.mem_map_of_mem idNum h)

theorem maxEntryId_le {entries : List Entry} {b : Nat}
    (h : ∀ e ∈ entries, idNum e ≤ b) : maxEntryId entries ≤ b := by
  refine foldl_max_le (Nat.zero_le b) ?_
  intro x hx
  obtain ⟨e, he, rfl⟩ := List.mem_map.mp hx
  exact h e he

/-! ## C1 — id assignment -/

/-- C1: for every collection of entries (with numerically valid ids not
exceeding the ceiling), `next_entry_id` returns the starting id
(`"1"` in the package variant, `"00001"` in the zero-padded `main.py`
variant) on an empty collection; otherwise it returns a decimal string
whose numeric value is `max(existing ids) + 1`, hence strictly greater
than every existing id; and it fails with `MaximumNumberOfEntries`
exactly when the maximum existing id is already at the ceiling 99999. -/
theorem C1_next_entry_id (entries : List Entry)
    (hceil : ∀ e ∈ entries, idNum e ≤ MAX_ID) :
    (entries = [] →
      models.next_entry_id entries = .ok FIRST_ID ∧
      mainpy.next_entry_id entries = .ok MAIN_FIRST_ID) ∧
    (entries ≠ [] → maxEntryId entries < MAX_ID →
      models.next_entry_id entries = .ok (natToDecimal (maxEntryId entries + 1)) ∧
      mainpy.next_entry_id entries = .ok (pad5 (maxEntryId entries + 1)) ∧
      pyInt (natToDecimal (maxEntryId entries + 1)) = some (maxEntryId entries + 1) ∧
      pyInt (pad5 (maxEntryId entries + 1)) = some (maxEntryId entries + 1) ∧
      ∀ e ∈ entries, idNum e < maxEntryId entries + 1) ∧
    (entries ≠ [] →
      ((models.next_entry_id entries = .error .maximumNumberOfEntries) ↔
        maxEntryId entries = MAX_ID) ∧
      ((mainpy.next_entry_id entries = .error .maximumNumberOfEntries) ↔
        maxEntryId entries = MAX_ID)) := by
  refine ⟨?_, ?_, ?_⟩
  · rintro rfl
    exact ⟨rfl, rfl⟩
  · intro hne hlt
    have hempty : entries.isEmpty = false := by
      simpa [List.isEmpty_iff] using hne
    refine ⟨?_, ?_, pyInt_natToDecimal _, pyInt_pad5 _, ?_⟩
    · simp [models.next_entry_id, hempty, Nat.not_le.mpr hlt]
    · simp [mainpy.next_entry_id, hempty, Nat.not_le.mpr hlt]
    · intro e he
      exact Nat.lt_succ_of_le (idNum_le_maxEntryId he)
  · intro hne
    have hempty : entries.isEmpty = false := by
      simpa [List.isEmpty_iff] using hne
    have hle : maxEntryId entries ≤ MAX_ID := maxEntryId_le hceil
    by_cases hmax : MAX_ID ≤ maxEntryId entries
    · have heq : maxEntryId entries = MAX_ID := le_antisymm hle hmax
      constructor
      · constructor
        · intro _; exact heq
        · intro _; simp [models.next_entry_id, hempty, hmax]
      · constructor
        · intro _; exact heq
        · intro _; simp [mainpy.next_entry_id, hempty, hmax]
    · have hne' : maxEntryId entries ≠ MAX_ID := fun heq => hmax (le_of_eq heq.symm)
      constructor
      · constructor
        · intro herr
          exfalso
          simp [models.next_entry_id, hempty, hmax] at herr
        · intro heq; exact absurd heq hne'
      · constructor
        · intro herr
          exfalso
          simp [mainpy.next_entry_id, hempty, hmax] at herr
        · intro heq; exact absurd heq hne'

/-- C1 witness: a concrete collection with one entry of id `"00041"`:
both variants produce an id of numeric value 42, and the empty collection
gets the starting ids. -/
theorem C1_next_entry_id_witness :
    models.next_entry_id [mkEntry "00041" "a" "b" "t" []] = .ok "42" ∧
    mainpy.next_entry_id [mkEntry "00041" "a" "b" "t" []] = .ok "00042" ∧
    models.next_entry_id [] = .ok "1" ∧
    mainpy.next_entry_id [] = .ok "00001" := by
  have h := C1_next_entry_id [mkEntry "00041" "a" "b" "t" []] (by decide)
  have h2 := h.2.1 (by decide) (by decide)
  have h0 := (C1_next_entry_id [] (by simp)).1 rfl
  exact ⟨h2.1, h2.2.1, h0.1, h0.2⟩

/-! ## C2 — duplicate titles -/

/-- C2: for every collection and every title equal case-insensitively to
the title of some existing entry, the cli `add` command reports the
duplicate-title message (a user-facing message; `create` prints it and
raises `typer.Exit`, which skips the session's closing `save`) and the
persisted collection is exactly the unchanged input. -/
theorem C2_add_duplicate_title (title content tagsStr now : String)
    (entries : List Entry)
    (hdup : ∃ e ∈ entries, pyLower e.title = pyLower title) :
    cli.add title content tagsStr now entries = (entries, .duplicateTitle) := by
  have hany : entries.any (fun e => pyLower e.title = pyLower title) = true := by
    rw [List.any_eq_true]
    obtain ⟨e, he, heq⟩ := hdup
    exact ⟨e, he, by simpa using heq⟩
  simp [cli.add, models.create, hany]

/-- C2 witness: adding `"ABC"` over an existing entry titled `"abc"`
reports the duplicate and leaves the collection unchanged. -/
theorem C2_add_duplicate_title_witness :
    (∃ e ∈ [mkEntry "1" "abc" "y" "t" []], pyLower e.title = pyLower "ABC") ∧
    cli.add "ABC" "x" "p, q" "t2" [mkEntry "1" "abc" "y" "t" []] =
      ([mkEntry "1" "abc" "y" "t" []], .duplicateTitle) :=
  ⟨⟨mkEntry "1" "abc" "y" "t" [], by decide, by decide⟩,
    C2_add_duplicate_title "ABC" "x" "p, q" "t2" [mkEntry "1" "abc" "y" "t" []]
      ⟨mkEntry "1" "abc" "y" "t" [], by decide, by decide⟩⟩

/-! ## C7 — truncation at construction -/

/-- C7: entry construction never fails on length: a title longer than 30
code points is truncated to its first 30 and a content longer than 70 to
its first 70; shorter inputs are stored unchanged; the stored fields never
exceed the limits.  (`src/main.py` also prints a warning; the package
variant truncates silently.) -/
theorem C7_truncation (id title content ts : String) (tags : List String) :
    (pyLen title ≤ TITLE_LENGTH → (mkEntry id title content ts tags).title = title) ∧
    (TITLE_LENGTH < pyLen title →
      (mkEntry id title content ts tags).title = pyTake TITLE_LENGTH title) ∧
    (pyLen content ≤ CONTENT_LENGTH → (mkEntry id title content ts tags).content = content) ∧
    (CONTENT_LENGTH < pyLen content →
      (mkEntry id title content ts tags).content = pyTake CONTENT_LENGTH content) ∧
    pyLen (mkEntry id title content ts tags).title ≤ TITLE_LENGTH ∧
    pyLen (mkEntry id title content ts tags).content ≤ CONTENT_LENGTH := by
  refine ⟨?_, ?_, ?_, ?_, ?_, ?_⟩
  · intro h; simp [mkEntry, truncateTo, Nat.not_lt.mpr h]
  · intro h; simp [mkEntry, truncateTo, h]
  · intro h; simp [mkEntry, truncateTo, Nat.not_lt.mpr h]
  · intro h; simp [mkEntry, truncateTo, h]
  · exact pyLen_truncateTo TITLE_LENGTH title
  · exact pyLen_truncateTo CONTENT_LENGTH content

/-- C7 witness: a 31-character title is cut to its first 30 characters,
and a short content is stored unchanged. -/
theorem C7_truncation_witness :
    TITLE_LENGTH < pyLen "abcdefghijklmnopqrstuvwxyz01234" ∧
    (mkEntry "1" "abcdefghijklmnopqrstuvwxyz01234" "short" "t" []).title =
      pyTake TITLE_LENGTH "abcdefghijklmnopqrstuvwxyz01234" ∧
    (mkEntry "1" "abcdefghijklmnopqrstuvwxyz01234" "short" "t" []).title =
      "abcdefghijklmnopqrstuvwxyz0123" ∧
    (mkEntry "1" "abcdefghijklmnopqrstuvwxyz01234" "short" "t" []).content = "short" :=
  ⟨by decide,
    (C7_truncation "1" "abcdefghijklmnopqrstuvwxyz01234" "short" "t" []).2.1 (by decide),
    by decide,
    (C7_truncation "1" "abcdefghijklmnopqrstuvwxyz01234" "short" "t" []).2.2.1 (by decide)⟩

/-! ## C3 — save/load round trip -/

/-- A valid entry: its title and content respect the construction-time
length limits (every entry built by `mkEntry` satisfies this). -/
def Entry.valid (e : Entry) : Prop :=
  pyLen e.title ≤ TITLE_LENGTH ∧ pyLen e.content ≤ CONTENT_LENGTH

instance (e : Entry) : Decidable e.valid :=
  inferInstanceAs (Decidable (_ ∧ _))

theorem strList_map_str (l : List String) :
    db.strList (l.map db.JsonVal.str) = some l := by
  induction l with
  | nil => rfl
  | cons s l ih => simp [db.strList, ih]

theorem mkEntry_eq_self {e : Entry} (h : e.valid) :
    mkEntry e.id e.title e.content e.timestamp e.tags = e := by
  obtain ⟨h1, h2⟩ := h
  simp [mkEntry, truncateTo, Nat.not_lt.mpr h1, Nat.not_lt.mpr h2]

theorem decodeRecord_entryToDict {e : Entry} (h : e.valid) :
    db.decodeRecord (db.entryToDict e) = some e := by
  simp [db.decodeRecord, db.entryToDict, db.getVal, strList_map_str, mkEntry_eq_self h]

/-- C3: saving a collection of valid entries and then loading it yields
exactly the same collection — same ids, titles, contents, tags and
timestamps, in the same order. -/
theorem C3_save_load_roundtrip (entries : List Entry)
    (hvalid : ∀ e ∈ entries, e.valid) :
    db.load_entries (db.save entries) = .ok entries := by
  have hmap : db.decodeAll (entries.map db.entryToDict) = some entries := by
    induction entries with
    | nil => rfl
    | cons e l ih =>
      have he : e.valid := hvalid e (List.mem_cons_self e l)
      have hl : ∀ x ∈ l, x.valid := fun x hx => hvalid x (List.mem_cons_of_mem e hx)
      simp [db.decodeAll, decodeRecord_entryToDict he, ih hl]
  simp [db.load_entries, db.save, hmap]

/-- C3 witness: a concrete valid entry survives the round trip. -/
theorem C3_save_load_roundtrip_witness :
    (∀ e ∈ [mkEntry "00001" "abc" "xyz" "2026-01-01T00:00:00" ["py", "test"]], e.valid) ∧
    db.load_entries (db.save [mkEntry "00001" "abc" "xyz" "2026-01-01T00:00:00" ["py", "test"]]) =
      .ok [mkEntry "00001" "abc" "xyz" "2026-01-01T00:00:00" ["py", "test"]] :=
  ⟨by decide,
    C3_save_load_roundtrip [mkEntry "00001" "abc" "xyz" "2026-01-01T00:00:00" ["py", "test"]]
      (by decide)⟩

/-! ## C9 — load on a missing or malformed file -/

/-- C9 (divergence): an empty or syntactically malformed backing file is
indeed degraded to the empty collection, but on an absent file the `open`
call sits outside the `try`, so `load_entries` raises `FileNotFoundError`
to its caller instead of returning `[]` — the `except` clause naming
`FileNotFoundError` is unreachable.  A parsed file whose records are not
well-formed entry objects likewise raises `TypeError`. -/
theorem C9_load_absent_raises :
    db.load_entries .absent = .raised .fileNotFoundError ∧
    db.load_entries .unparsable = .ok [] ∧
    db.load_entries (.parsed (.arr [.num 3])) = .raised .typeError :=
  ⟨rfl, rfl, rfl⟩

/-! ## C4 — search tiering -/

/-- C4 (counterexample): in the `main.py` search, the tag tier excludes
only entries already in the content tier, not those in the title tier: an
entry whose title and tag both match (content not matching) is returned
twice.  This refutes "an entry matched in more than one tier is never
returned twice". -/
theorem C4_counterexample :
    mainpy.search "abc" [mkEntry "00001" "abc" "xyz" "t" ["abc"]] =
      [mkEntry "00001" "abc" "xyz" "t" ["abc"], mkEntry "00001" "abc" "xyz" "t" ["abc"]] ∧
    List.count (mkEntry "00001" "abc" "xyz" "t" ["abc"])
      (mainpy.search "abc" [mkEntry "00001" "abc" "xyz" "t" ["abc"]]) = 2 ∧
    mainpy.matchesTitle "abc" (mkEntry "00001" "abc" "xyz" "t" ["abc"]) = true ∧
    mainpy.matchesContent "abc" (mkEntry "00001" "abc" "xyz" "t" ["abc"]) = false ∧
    mainpy.matchesTags "abc" (mkEntry "00001" "abc" "xyz" "t" ["abc"]) = true := by
  decide

/-- C4 (amended): non-titles-only search returns the title tier, then the
content tier (excluding entries already matched by title), then the tag
tier (excluding only entries already in the content tier), each tier
preserving collection order; an entry whose title and content both match
and whose tags do not match the query appears exactly once, in the title
tier. -/
theorem C4_search_tiering (query : String) (entries : List Entry) (e : Entry)
    (hcount : List.count e entries = 1)
    (ht : mainpy.matchesTitle query e = true)
    (hc : mainpy.matchesContent query e = true)
    (hnt : mainpy.matchesTags query e = false) :
    mainpy.search query entries =
      mainpy.title_results query entries ++ mainpy.content_results query entries ++
        mainpy.tags_results query entries ∧
    (mainpy.title_results query entries).Sublist entries ∧
    (mainpy.content_results query entries).Sublist entries ∧
    (mainpy.tags_results query entries).Sublist entries ∧
    (∀ x ∈ mainpy.content_results query entries, mainpy.matchesTitle query x = false) ∧
    e ∈ mainpy.title_results query entries ∧
    List.count e (mainpy.search query entries) = 1 := by
  have hmem : e ∈ entries := by
    rw [← List.count_pos_iff]
    omega
  have hmemTitle : e ∈ mainpy.title_results query entries :=
    List.mem_filter.mpr ⟨hmem, ht⟩
  refine ⟨rfl, List.filter_sublist entries, List.filter_sublist entries,
    List.filter_sublist entries, ?_, hmemTitle, ?_⟩
  · intro x hx
    obtain ⟨hxent, hxpred⟩ := List.mem_filter.mp hx
    rw [Bool.and_eq_true] at hxpred
    obtain ⟨-, hnc⟩ := hxpred
    cases hmt : mainpy.matchesTitle query x with
    | false => rfl
    | true =>
      exfalso
      have hxt : x ∈ mainpy.title_results query entries := List.mem_filter.mpr ⟨hxent, hmt⟩
      rw [Bool.not_eq_true'] at hnc
      exact absurd (List.elem_iff.mpr hxt) (by simp [List.contains] at hnc; simp [hnc])
  · have h1 : List.count e (mainpy.title_results query entries) = 1 := by
      rw [mainpy.title_results, List.count_filter ht, hcount]
    have h2 : List.count e (mainpy.content_results query entries) = 0 := by
      rw [List.count_eq_zero]
      intro hmemC
      obtain ⟨-, hpred⟩ := List.mem_filter.mp hmemC
      rw [Bool.and_eq_true] at hpred
      obtain ⟨-, hnc⟩ := hpred
      rw [Bool.not_eq_true'] at hnc
      exact absurd (List.elem_iff.mpr hmemTitle) (by simp_all [List.contains])
    have h3 : List.count e (mainpy.tags_results query entries) = 0 := by
      rw [List.count_eq_zero]
      intro hmemT
      obtain ⟨-, hpred⟩ := List.mem_filter.mp hmemT
      rw [Bool.and_eq_true] at hpred
      obtain ⟨htag, -⟩ := hpred
      rw [hnt] at htag
      exact Bool.false_ne_true htag
    rw [mainpy.search, List.count_append, List.count_append, h1, h2, h3]

/-- C4 witness: a query matching title and content (but no tag) of a
single entry returns that entry exactly once. -/
theorem C4_search_tiering_witness :
    List.count (mkEntry "1" "abq" "lab" "t" ["z"]) [mkEntry "1" "abq" "lab" "t" ["z"]] = 1 ∧
    List.count (mkEntry "1" "abq" "lab" "t" ["z"])
      (mainpy.search "ab" [mkEntry "1" "abq" "lab" "t" ["z"]]) = 1 :=
  ⟨by decide,
    (C4_search_tiering "ab" [mkEntry "1" "abq" "lab" "t" ["z"]]
      (mkEntry "1" "abq" "lab" "t" ["z"])
      (by decide) (by decide) (by decide) (by decide)).2.2.2.2.2.2⟩

/-! ## C5 — delete -/

/-- C5 (code bug evaluation): `main.py`'s absence check is the substring
test `entry_id in entry.id`, so deleting id `"1"` from a collection whose
sole entry has id `"00012"` prints no message at all — neither the
`EntryNotFound` report its own comment promises nor a removal — though the
collection is (vacuously) unchanged.  The refactored cli variant compares
with `==` and does report `EntryNotFound`. -/
theorem C5_main_delete_silent_on_absent_id :
    mainpy.delete "1" [mkEntry "00012" "tt" "cc" "ts" []] =
      ([mkEntry "00012" "tt" "cc" "ts" []], .silent) ∧
    (∀ e ∈ [mkEntry "00012" "tt" "cc" "ts" []], e.id ≠ "1") ∧
    cli.delete "1" [mkEntry "00012" "tt" "cc" "ts" []] =
      ([mkEntry "00012" "tt" "cc" "ts" []], .notFound) := by
  decide

/-! ## C6 — edit -/

/-- C6 (code bug evaluation): `main.py`'s `edit` uses the same substring
presence check: editing id `"1"` when the only entry has id `"00012"`
neither reports `EntryNotFound` nor edits anything; the cli variant
reports `EntryNotFound` as the claim states. -/
theorem C6_main_edit_silent_on_absent_id :
    mainpy.edit "1" "new content" [mkEntry "00012" "tt" "cc" "ts" []] =
      ([mkEntry "00012" "tt" "cc" "ts" []], .silent) ∧
    (∀ e ∈ [mkEntry "00012" "tt" "cc" "ts" []], e.id ≠ "1") ∧
    cli.edit "1" "new content" [mkEntry "00012" "tt" "cc" "ts" []] =
      ([mkEntry "00012" "tt" "cc" "ts" []], .notFound) := by
  decide

/-! ## C8 — display ordering and filtering -/

/-- C8 (counterexample): the `main.py` `display` never sorts — it shows
the stored order — so on a collection stored in ascending id order the
shown entries are not in descending numeric-id order, refuting "Display
orders the shown entries by numeric id descending" for that variant.
The cli variant does sort. -/
theorem C8_counterexample :
    (mainpy.display [] [mkEntry "00001" "a" "b" "t" [], mkEntry "00002" "c" "d" "t" []]).2 =
      [mkEntry "00001" "a" "b" "t" [], mkEntry "00002" "c" "d" "t" []] ∧
    ¬ List.Sorted entryGE
        (mainpy.display [] [mkEntry "00001" "a" "b" "t" [], mkEntry "00002" "c" "d" "t" []]).2 ∧
    List.Sorted entryGE
        (cli.display [] [mkEntry "00001" "a" "b" "t" [], mkEntry "00002" "c" "d" "t" []]).2 := by
  decide

/-- C8 (amended): the cli `display` orders the shown entries by numeric id
descending; when the filter is non-empty both variants keep exactly the
entries having at least one tag equal case-insensitively to some filter
tag (the `main.py` variant in stored order, without sorting); and on an
empty collection both report "no entries" regardless of the filter. -/
theorem C8_display_ordering (tags : List String) (entries : List Entry) :
    (entries = [] →
      cli.display tags entries = (true, []) ∧ (mainpy.display tags entries).1 = true) ∧
    List.Sorted entryGE (cli.display tags entries).2 ∧
    (tags ≠ [] →
      ∀ e, e ∈ (cli.display tags entries).2 ↔ e ∈ entries ∧ tagMatch tags e = true) ∧
    (tags = [] → (cli.display tags entries).2.Perm entries) ∧
    (mainpy.display tags entries).1 = entries.isEmpty ∧
    (tags ≠ [] → (mainpy.display tags entries).2 = entries.filter (tagMatch tags)) := by
  refine ⟨?_, ?_, ?_, ?_, rfl, ?_⟩
  · rintro rfl
    exact ⟨rfl, rfl⟩
  · by_cases hemp : entries.isEmpty
    · simp [cli.display, hemp, List.Sorted]
    · rw [cli.display, if_neg hemp]
      by_cases htags : tags.isEmpty
      · simpa [htags] using List.sorted_insertionSort entryGE entries
      · simpa [htags] using (List.sorted_insertionSort entryGE entries).filter (tagMatch tags)
  · intro htags e
    have htags' : tags.isEmpty = false := by
      simpa [List.isEmpty_iff] using htags
    by_cases hemp : entries.isEmpty
    · have : entries = [] := List.isEmpty_iff.mp hemp
      subst this
      simp [cli.display]
    · rw [cli.display, if_neg hemp]
      simp only [htags', Bool.false_eq_true, if_false, List.mem_filter,
        (List.perm_insertionSort entryGE entries).mem_iff]
  · intro htags
    subst htags
    by_cases hemp : entries.isEmpty
    · have : entries = [] := List.isEmpty_iff.mp hemp
      subst this
      exact List.Perm.refl _
    · rw [cli.display, if_neg hemp]
      simpa using List.perm_insertionSort entryGE entries
  · intro htags
    have htags' : tags.isEmpty = false := by
      simpa [List.isEmpty_iff] using htags
    simp [mainpy.display, htags']

/-- C8 witness: on a two-entry ascending collection with a tag filter,
the cli display output is sorted descending and the `main.py` output is
the stored-order tag filter. -/
theorem C8_display_ordering_witness :
    List.Sorted entryGE
      (cli.display ["py"] [mkEntry "00001" "a" "b" "t" ["py"],
        mkEntry "00002" "c" "d" "t" ["x"]]).2 ∧
    (mainpy.display ["py"] [mkEntry "00001" "a" "b" "t" ["py"],
        mkEntry "00002" "c" "d" "t" ["x"]]).2 =
      [mkEntry "00001" "a" "b" "t" ["py"], mkEntry "00002" "c" "d" "t" ["x"]].filter
        (tagMatch ["py"]) :=
  ⟨(C8_display_ordering ["py"] [mkEntry "00001" "a" "b" "t" ["py"],
      mkEntry "00002" "c" "d" "t" ["x"]]).2.1,
    (C8_display_ordering ["py"] [mkEntry "00001" "a" "b" "t" ["py"],
      mkEntry "00002" "c" "d" "t" ["x"]]).2.2.2.2.2 (by decide)⟩

/-! ## C10 — edit stores content verbatim -/

theorem editFirst_split (entry_id new_content : String) :
    ∀ entries : List Entry, entries.any (fun e => e.id = entry_id) = true →
      ∃ pre e post, entries = pre ++ e :: post ∧ (∀ x ∈ pre, x.id ≠ entry_id) ∧
        e.id = entry_id ∧
        editFirst entry_id new_content entries =
          pre ++ { e with content := new_content } :: post := by
  intro entries
  induction entries with
  | nil => intro h; simp at h
  | cons a l ih =>
    intro h
    by_cases ha : a.id = entry_id
    · exact ⟨[], a, l, rfl, by simp, ha, by simp [editFirst, ha]⟩
    · have hl : l.any (fun e => e.id = entry_id) = true := by
        rw [List.any_cons] at h
        simpa [ha] using h
      obtain ⟨pre, e, post, h1, h2, h3, h4⟩ := ih hl
      refine ⟨a :: pre, e, post, by rw [h1]; rfl, ?_, h3, ?_⟩
      · intro x hx
        rcases List.mem_cons.mp hx with rfl | hx'
        · exact ha
        · exact h2 x hx'
      · rw [editFirst, if_neg ha, h4]
        rfl

/-- C10: for every collection containing the edited id, the cli `edit`
splits the collection around the first matching entry and replaces only
that entry's `content` field with the provided string verbatim — the
title, tags, timestamp and id of that entry and all other entries are
unchanged, and no truncation is applied (the assignment
`entry.content = new_content` bypasses `__post_init__`), so the
creation-time 70-character content bound is not preserved by edit. -/
theorem C10_edit_stores_verbatim (entry_id new_content : String) (entries : List Entry)
    (h : ∃ e ∈ entries, e.id = entry_id) :
    ∃ pre e post,
      entries = pre ++ e :: post ∧ (∀ x ∈ pre, x.id ≠ entry_id) ∧ e.id = entry_id ∧
      cli.edit entry_id new_content entries =
        (pre ++ { e with content := new_content } :: post, .done) := by
  have hany : entries.any (fun e => e.id = entry_id) = true := by
    rw [List.any_eq_true]
    obtain ⟨e, he, heq⟩ := h
    exact ⟨e, he, by simpa using heq⟩
  obtain ⟨pre, e, post, h1, h2, h3, h4⟩ := editFirst_split entry_id new_content entries hany
  exact ⟨pre, e, post, h1, h2, h3, by rw [cli.edit, if_pos hany, h4]⟩

/-- A 71-character replacement content, exceeding `CONTENT_LENGTH`. -/
def longContent71 : String :=
  "0123456789012345678901234567890123456789012345678901234567890123456789x"

/-- C10 witness: editing a concrete entry with a 71-character string
stores it verbatim, past the creation-time 70-character bound. -/
theorem C10_edit_stores_verbatim_witness :
    CONTENT_LENGTH < pyLen longContent71 ∧
    (∃ e ∈ [mkEntry "00012" "tt" "cc" "ts" []], e.id = "00012") ∧
    (∃ pre e post,
      [mkEntry "00012" "tt" "cc" "ts" []] = pre ++ e :: post ∧
      (∀ x ∈ pre, x.id ≠ "00012") ∧ e.id = "00012" ∧
      cli.edit "00012" longContent71 [mkEntry "00012" "tt" "cc" "ts" []] =
        (pre ++ { e with content := longContent71 } :: post, .done)) :=
  ⟨by decide, ⟨mkEntry "00012" "tt" "cc" "ts" [], by decide, by decide⟩,
    C10_edit_stores_verbatim "00012" longContent71 [mkEntry "00012" "tt" "cc" "ts" []]
      ⟨mkEntry "00012" "tt" "cc" "ts" [], by decide, by decide⟩⟩
